import Mathlib

set_option maxHeartbeats 1000000

/-!
Verification of the Stille Post game orchestrator (`game.py`, `models.py`).

The Python source is shallowly embedded: dataclasses become structures,
object mutation becomes explicit state passing over `GameState`, and every
use of the `random` module becomes an explicit parameter (a coin for
`random.random() < 0.5`, an index for `random.choice` / a chosen sample for
`random.sample`).  Calls to the external chat-completion client are
modelled by oracle parameters (`Except` results / reply functions), since
the client is an external collaborator.
-/

namespace StillePost

/-- A role-tagged chat message (OpenAI-format dict with `role` and `content`). -/
structure Message where
  role : String
  content : String
deriving DecidableEq

/-- The `Player` dataclass of `models.py`. -/
structure Player where
  player_id : Nat
  provider_name : String
  model_id : String
  is_active : Bool := true
  has_won : Bool := false
  private_hints : List String := []
deriving DecidableEq

/-- The `GameState` dataclass of `models.py`. -/
structure GameState where
  players : List Player
  conversation : List Message
  current_turn : Nat := 0
  rounds_between_guesses : Nat := 3
  max_rounds : Nat := 20
deriving DecidableEq

/-- The `GameState.active_players` property of `models.py`:
players with the active flag set and the won flag unset. -/
def GameState.active_players (gs : GameState) : List Player :=
  gs.players.filter (fun p => p.is_active && !p.has_won)

/-- The `PROVIDER_MODELS` catalog of `models.py` (insertion order of the
Python dict, which iteration preserves). -/
def PROVIDER_MODELS : List (String × List String) :=
  [("openai",
    ["gpt-5", "gpt-5-mini", "gpt-5-nano", "gpt-4.1", "gpt-4.1-mini", "gpt-4.1-nano"]),
   ("anthropic",
    ["claude-opus-4-6", "claude-sonnet-4-5", "claude-haiku-4-5"]),
   ("google",
    ["gemini-3-pro-preview", "gemini-3-flash-preview", "gemini-2.5-flash",
     "gemini-2.5-flash-lite"])]

/-- The `all_models` list computed in `StillePostGame._init_game`:
all (provider, model) pairs of the catalog, in catalog order. -/
def all_models : List (String × String) :=
  PROVIDER_MODELS.flatMap (fun pm => pm.2.map (fun m => (pm.1, m)))

/-- Python substring containment `sub in big` on strings. -/
def pyIn (sub big : String) : Bool := decide (sub.toList <:+: big.toList)

/-- Python `s.lower()` (ASCII case folding, as the model ids use). -/
def pyLower (s : String) : String := String.mk (s.toList.map Char.toLower)

/-- Python `s.strip()`: remove leading and trailing whitespace. -/
def pyStrip (s : String) : String :=
  String.mk (((s.toList.dropWhile Char.isWhitespace).reverse.dropWhile Char.isWhitespace).reverse)

/-- Python slice `s[a:b]` (for `a ≤ b`, as used in the hint generator). -/
def pySlice (s : String) (a b : Nat) : String :=
  String.mk ((s.toList.drop a).take (b - a))

/-- Builds the player list of `_init_game` from the sampled pairs:
`Player(player_id=i + 1, provider_name=prov, model_id=model)` for
`i, (prov, model) in enumerate(selected)`. -/
def mkPlayers : Nat → List (String × String) → List Player
  | _, [] => []
  | i, (prov, model) :: rest =>
    { player_id := i + 1, provider_name := prov, model_id := model } :: mkPlayers (i + 1) rest

/-- What `random.sample l k` guarantees about its result: `k` distinct
elements drawn from `l`. -/
def SampleOf (l : List (String × String)) (k : Nat) (s : List (String × String)) : Prop :=
  s.length = k ∧ s.Nodup ∧ ∀ x ∈ s, x ∈ l

/-- `StillePostGame._init_game`.  The result of
`random.sample(all_models, min(num_players, len(all_models)))` is passed in
as the `sample` parameter (constrained by `SampleOf` in the theorems). -/
def init_game (rounds_between_guesses max_rounds : Nat)
    (sample : List (String × String)) : GameState :=
  { players := mkPlayers 0 sample,
    conversation := [],
    rounds_between_guesses := rounds_between_guesses,
    max_rounds := max_rounds }

/-- Python `"\n".join parts`. -/
def joinSep (sep : String) : List String → String
  | [] => ""
  | [x] => x
  | x :: y :: xs => x ++ sep ++ joinSep sep (y :: xs)

/-- The rendering of one private hint line in `_player_system_prompt`. -/
def renderHint (h : String) : String := ">>> [SYSTEM HINT]: " ++ h ++ " <<<"

/-- `StillePostGame._player_system_prompt`.  The template loaded from file
and the concatenated source code (`self.system_prompt`,
`self._load_source_code()`) are constants of the run, passed as parameters. -/
def player_system_prompt (system_prompt source_code : String)
    (player : Player) (gs : GameState) : String :=
  let base := [system_prompt, source_code,
    "\n## Your Identity",
    "You are **Player " ++ toString player.player_id ++ "**.",
    "There are currently **" ++ toString gs.active_players.length ++ "** active players."]
  let parts := if player.private_hints.isEmpty then base
    else base ++ ["\n## 🔒 YOUR PRIVATE HINTS (Do not share!)"]
         ++ player.private_hints.map renderHint
  joinSep "\n" parts

/-- The sentinel string of `_generate_hint`. -/
def sentinelHint : String := "No more hints available — you\x27ve seen them all!"

/-- The five hint templates (`possible_hints`) of `_generate_hint`.
Python `player.model_id[0]` raises on an empty model id (no catalog model
is empty); it is totalized here with `headD`. -/
def possible_hints (player : Player) : List String :=
  let m := player.model_id
  ["Your provider is \x27" ++ player.provider_name ++ "\x27.",
   "Your model name has " ++ toString m.length ++ " characters.",
   "The first letter of your model ID is \x27"
     ++ String.singleton (m.toList.headD 'A') ++ "\x27.",
   "You are "
     ++ (if ["pro", "opus", "5.2"].any (fun k => pyIn k (pyLower m))
         then "a flagship/large" else "a smaller/efficient")
     ++ " model.",
   "Your model ID contains the substring \x27"
     ++ pySlice m (m.length / 3) (2 * m.length / 3) ++ "\x27."]

/-- `StillePostGame._generate_hint`.  `random.choice(unseen)` is modelled
by the index parameter `k`, reduced mod the length of `unseen`. -/
def generate_hint (player : Player) (k : Nat) : String :=
  let unseen := (possible_hints player).filter (fun h => !player.private_hints.contains h)
  match unseen with
  | [] => sentinelHint
  | u :: us => (u :: us).getD (k % (u :: us).length) u

/-- The digit extraction of `_tool_guess_model`:
`"".join(c for c in target_str if c.isdigit())`. -/
def extractDigits (s : String) : String := String.mk (s.toList.filter Char.isDigit)

/-- Value of a decimal digit string, as Python `int` on it. -/
def digitsToNat (s : String) : Nat :=
  s.toList.foldl (fun n c => 10 * n + (c.toNat - 48)) 0

/-- `int("".join(digits) or "0")` of `_tool_guess_model`. -/
def parseTargetId (s : String) : Nat :=
  let d := extractDigits s
  if d = "" then 0 else digitsToNat d

/-- Object mutation `p.is_active = False` on the player with the given id. -/
def setInactive (gs : GameState) (pid : Nat) : GameState :=
  { gs with players := gs.players.map fun p =>
      if p.player_id = pid then { p with is_active := false } else p }

/-- Object mutation `p.has_won = True` on the player with the given id. -/
def setWon (gs : GameState) (pid : Nat) : GameState :=
  { gs with players := gs.players.map fun p =>
      if p.player_id = pid then { p with has_won := true } else p }

/-- Object mutation `p.private_hints.append h` on the player with the given id. -/
def appendHint (gs : GameState) (pid : Nat) (h : String) : GameState :=
  { gs with players := gs.players.map fun p =>
      if p.player_id = pid then { p with private_hints := p.private_hints ++ [h] } else p }

/-- `StillePostGame._tool_russian_roulette`.  `random.random() < 0.5` is the
`coin` parameter; `random.choice(others)` is modelled by index `k` mod the
length of `others`. -/
def russian_roulette (gs : GameState) (pid : Nat) (coin : Bool) (k : Nat) :
    GameState × String :=
  if coin then
    (setInactive gs pid,
     "💀 BANG! Player " ++ toString pid ++ " shot themselves and is eliminated!")
  else
    match gs.active_players.filter (fun p => p.player_id ≠ pid) with
    | [] => (gs, "🎯 Player " ++ toString pid ++ " survived! No one else to hit though.")
    | o :: os =>
      let victim := (o :: os).getD (k % (o :: os).length) o
      (setInactive gs victim.player_id,
       "🎯 Player " ++ toString pid ++ " survived! Player "
         ++ toString victim.player_id ++ " was eliminated!")

/-- `StillePostGame._tool_guess_model`.  The caller is identified by `pid`;
the Python code mutates the caller object directly, which only affects the
game state when that object is among `gs.players` — hence the lookup, whose
`none` branch (caller not in the game) leaves the state unchanged exactly
as the detached mutation would. -/
def tool_guess_model (gs : GameState) (pid : Nat)
    (args : List (String × String)) (k : Nat) : GameState × String :=
  let target_str := (args.lookup "target_player").getD "0"
  let guessed_model := pyLower (pyStrip ((args.lookup "guessed_model").getD ""))
  let target_id := parseTargetId target_str
  match gs.players.find? (fun p => p.player_id == target_id) with
  | none => (gs, "❌ Player " ++ target_str ++ " not found.")
  | some target =>
    if pyIn (pyLower target.model_id) guessed_model
        || pyIn guessed_model (pyLower target.model_id) then
      match gs.players.find? (fun p => p.player_id == pid) with
      | some guesser =>
        (appendHint gs pid (generate_hint guesser k),
         "✅ Correct! Player " ++ toString target_id
           ++ " is indeed that model. You earned a private hint!")
      | none =>
        (gs, "✅ Correct! Player " ++ toString target_id
           ++ " is indeed that model. You earned a private hint!")
    else (gs, "❌ Wrong guess about Player " ++ toString target_id ++ ".")

/-- `StillePostGame._tool_proclaim` (pure narration). -/
def tool_proclaim (pid : Nat) (args : List (String × String)) : String :=
  "👑 Player " ++ toString pid ++ " proclaims: \""
    ++ (args.lookup "proclamation").getD "I am the best!" ++ "\""

/-- `StillePostGame._tool_propose_task` (pure narration). -/
def tool_propose_task (pid : Nat) (args : List (String × String)) : String :=
  "📋 Player " ++ toString pid ++ " proposes a task: \""
    ++ (args.lookup "task").getD "No task specified." ++ "\""

/-- A tool invocation as returned by the chat client, with its arguments
already decoded from JSON into a key-value list. -/
structure ToolCall where
  name : String
  arguments : List (String × String)
deriving DecidableEq

/-- `StillePostGame._execute_tool`: routing by tool name; the randomness
needed by the handlers is threaded through as `coin`/`k`. -/
def execute_tool (gs : GameState) (pid : Nat) (tc : ToolCall) (coin : Bool) (k : Nat) :
    GameState × String :=
  if tc.name = "russian_roulette" then russian_roulette gs pid coin k
  else if tc.name = "guess_model" then tool_guess_model gs pid tc.arguments k
  else if tc.name = "proclaim_superiority" then (gs, tool_proclaim pid tc.arguments)
  else if tc.name = "propose_task" then (gs, tool_propose_task pid tc.arguments)
  else (gs, "❓ Unknown tool: " ++ tc.name)

/-- One iteration of the loop in `_identity_guess_round`: the player's
reply (or `none` for a chat-client exception, in which case the player is
skipped) is compared to the true model id with the lenient substring
policy, and success sets the won flag. -/
def identityGuessStep (replies : Nat → Option String) (g : GameState) (p : Player) :
    GameState :=
  match replies p.player_id with
  | none => g
  | some content =>
    let guess := pyLower (pyStrip content)
    let actual := pyLower p.model_id
    if pyIn actual guess || pyIn guess actual then setWon g p.player_id else g

/-- `StillePostGame._identity_guess_round`: iterates over a snapshot of the
active players taken at round start. -/
def identity_guess_round (replies : Nat → Option String) (gs : GameState) : GameState :=
  gs.active_players.foldl (identityGuessStep replies) gs

/-- The chat client result of `UnifiedLLMProvider.generate`. -/
structure ChatResult where
  content : String
  tool_calls : List ToolCall
deriving DecidableEq

/-- A `[GAME MASTER]` observer message (appended with role `"user"`). -/
def observerMsg (s : String) : Message :=
  { role := "user", content := "[GAME MASTER]: " ++ s }

/-- The tool-call loop of `_play_turn`: each tool executes in order and its
narration is appended to the conversation as an observer message.  `rand`
supplies the randomness consumed by the i-th tool call. -/
def processToolCalls (pid : Nat) (rand : Nat → Bool × Nat) :
    List ToolCall → Nat → GameState → GameState
  | [], _, gs => gs
  | tc :: rest, i, gs =>
    let r := execute_tool gs pid tc (rand i).1 (rand i).2
    processToolCalls pid rand rest (i + 1)
      { r.1 with conversation := r.1.conversation ++ [observerMsg r.2] }

/-- `StillePostGame._play_turn`.  `res` is the chat client outcome: an
exception (the `except` branch) or a `ChatResult`. -/
def play_turn (gs : GameState) (pid : Nat) (res : Except String ChatResult)
    (rand : Nat → Bool × Nat) : GameState :=
  match res with
  | Except.error _ =>
    { gs with conversation := gs.conversation ++
        [observerMsg ("Player " ++ toString pid ++ " had a technical difficulty. Skipping.")] }
  | Except.ok r =>
    let gs1 := { gs with conversation := gs.conversation ++
        [{ role := "assistant", content := "[Player " ++ toString pid ++ "]: " ++ r.content }] }
    processToolCalls pid rand r.tool_calls 0 gs1

/-- The state-mutating orchestrator operations: a tool execution (with its
observer narration), a bare observer note, a whole player turn, and an
identity-guess checkpoint. -/
inductive Op where
  | tool (pid : Nat) (tc : ToolCall) (coin : Bool) (k : Nat)
  | note (m : Message)
  | turn (pid : Nat) (res : Except String ChatResult) (rand : Nat → Bool × Nat)
  | checkpoint (replies : Nat → Option String)

/-- Effect of one orchestrator operation on the game state. -/
def applyOp (gs : GameState) : Op → GameState
  | Op.tool pid tc coin k =>
    let r := execute_tool gs pid tc coin k
    { r.1 with conversation := r.1.conversation ++ [observerMsg r.2] }
  | Op.note m => { gs with conversation := gs.conversation ++ [m] }
  | Op.turn pid res rand => play_turn gs pid res rand
  | Op.checkpoint replies => identity_guess_round replies gs

/-- The chat-dependent effects of the main loop, abstracted: what one
player turn does to the state (given the player id and the turn number)
and what an identity checkpoint does.  The concrete `play_turn` and
`identity_guess_round` are instances. -/
structure Env where
  intro : GameState → GameState
  playTurn : Nat → Nat → GameState → GameState
  checkpoint : GameState → GameState

/-- The inner `for player in list(active)` loop of `StillePostGame.run`,
over the snapshot of active player ids.  Mirrors: skip players that became
inactive or won since the snapshot, increment the turn counter, play the
turn, run a checkpoint every `rbg` turns, and break when the active count
drops to ≤ 1 or the turn counter reaches `maxR`. -/
def passPlayers (env : Env) (maxR rbg : Nat) :
    List Nat → Nat → GameState → Nat × GameState
  | [], turn, gs => (turn, gs)
  | pid :: rest, turn, gs =>
    match gs.players.find? (fun p => p.player_id == pid) with
    | none => passPlayers env maxR rbg rest turn gs
    | some p =>
      if !p.is_active || p.has_won then passPlayers env maxR rbg rest turn gs
      else
        let turn' := turn + 1
        let gs1 := env.playTurn pid turn' { gs with current_turn := turn' }
        let gs2 := if turn' % rbg = 0 then env.checkpoint gs1 else gs1
        if gs2.active_players.length ≤ 1 then (turn', gs2)
        else if maxR ≤ turn' then (turn', gs2)
        else passPlayers env maxR rbg rest turn' gs2

/-- The `while turn < max_rounds` loop of `StillePostGame.run`.  The loop
makes strictly positive turn progress on every pass, so fuel `maxR` always
suffices; the fuel-exhausted base case is unreachable under the theorems'
hypotheses. -/
def gameLoop (env : Env) (maxR rbg : Nat) : Nat → Nat → GameState → Nat × GameState
  | 0, turn, gs => (turn, gs)
  | fuel + 1, turn, gs =>
    if maxR ≤ turn then (turn, gs)
    else if gs.active_players.length ≤ 1 then (turn, gs)
    else
      let r := passPlayers env maxR rbg (gs.active_players.map (fun p => p.player_id)) turn gs
      gameLoop env maxR rbg fuel r.1 r.2

/-- `StillePostGame.run`: introduction round, then the main loop starting
at turn 0. -/
def runGame (env : Env) (maxR rbg : Nat) (gs : GameState) : Nat × GameState :=
  gameLoop env maxR rbg maxR 0 (env.intro gs)

/-- A state transformer that does not create, delete, reorder or re-identify
players (it may change flags, hints, the conversation and counters).  Both
concrete turn effects have this property. -/
def PreservesIds (f : GameState → GameState) : Prop :=
  ∀ gs : GameState, (f gs).players.map (fun p => p.player_id)
    = gs.players.map (fun p => p.player_id)

/-! ### General helper lemmas -/

theorem string_ne_of_head_ne {a b : String} (h : a.data.head? ≠ b.data.head?) : a ≠ b :=
  fun e => h (by rw [e])

theorem head_append_of_head {pre : String} (x : String) {c : Char}
    (h : pre.data.head? = some c) : (pre ++ x).data.head? = some c := by
  rw [String.data_append]
  cases hd : pre.data with
  | nil => rw [hd] at h; cases h
  | cons a as =>
    rw [hd] at h
    simp only [List.head?_cons, Option.some.injEq] at h
    simp [h]

theorem mkPlayers_length (i : Nat) (s : List (String × String)) :
    (mkPlayers i s).length = s.length := by
  induction s generalizing i with
  | nil => rfl
  | cons hd tl ih => cases hd; simp [mkPlayers, ih]

theorem mkPlayers_map_pair (i : Nat) (s : List (String × String)) :
    (mkPlayers i s).map (fun p => (p.provider_name, p.model_id)) = s := by
  induction s generalizing i with
  | nil => rfl
  | cons hd tl ih => cases hd; simp [mkPlayers, ih]

theorem mkPlayers_map_pid (i : Nat) (s : List (String × String)) :
    (mkPlayers i s).map (fun p => p.player_id) = List.range' (i + 1) s.length := by
  induction s generalizing i with
  | nil => rfl
  | cons hd tl ih =>
    cases hd
    simp only [mkPlayers, List.map_cons, List.length_cons, List.range']
    exact congrArg _ (ih (i + 1))

theorem mkPlayers_mem_flags (i : Nat) (s : List (String × String)) :
    ∀ p ∈ mkPlayers i s, p.is_active = true ∧ p.has_won = false ∧ p.private_hints = [] := by
  induction s generalizing i with
  | nil => intro p hp; cases hp
  | cons hd tl ih =>
    cases hd
    intro p hp
    rcases List.mem_cons.mp hp with h | h
    · subst h; exact ⟨rfl, rfl, rfl⟩
    · exact ih (i + 1) p h

/-! ### Claim C1 -/

/-- Claim C1 counterexample: with 14 players requested and only 13 distinct
(provider, model) pairs in the catalog, `_init_game` does not fail — there
is no `ConfigurationError` anywhere in the source — it silently samples
`min(14, 13) = 13` pairs and produces a `GameState` with 13 players. -/
theorem c1_counterexample :
    all_models.length = 13
    ∧ SampleOf all_models (min 14 all_models.length) all_models
    ∧ (init_game 3 15 all_models).players.length = 13 := by
  refine ⟨by decide, ⟨by decide, by decide, by decide⟩, by decide⟩

/-- Claim C1 (amended): when the requested player count exceeds the number
of distinct (provider, model) pairs, `_init_game` silently truncates: it
returns a `GameState` whose player count equals the number of available
pairs, rather than failing with a `ConfigurationError`. -/
theorem c1_init_truncates (n rbg mr : Nat) (sample : List (String × String))
    (hn : all_models.length < n)
    (hs : SampleOf all_models (min n all_models.length) sample) :
    (init_game rbg mr sample).players.length = all_models.length := by
  have hl := hs.1
  rw [Nat.min_eq_right (Nat.le_of_lt hn)] at hl
  simpa [init_game, mkPlayers_length] using hl

/-- Witness for C1 (amended) at the concrete over-large request of 14
players against the 13-pair catalog. -/
theorem c1_init_truncates_witness :
    (all_models.length < 14
      ∧ SampleOf all_models (min 14 all_models.length) all_models)
    ∧ (init_game 3 15 all_models).players.length = all_models.length :=
  ⟨⟨by decide, by decide, by decide, by decide⟩,
   c1_init_truncates 14 3 15 all_models (by decide) ⟨by decide, by decide, by decide⟩⟩

/-! ### Claim C8 -/

/-- Claim C8: for `1 ≤ N ≤` the number of catalog pairs, `_init_game`
produces exactly `N` players, with pairwise-distinct (provider, model)
assignments, sequential identifiers 1..N in assignment order, all active,
none won, and empty hint lists. -/
theorem c8_init_players (n rbg mr : Nat) (sample : List (String × String))
    (_h1 : 1 ≤ n) (h2 : n ≤ all_models.length)
    (hs : SampleOf all_models (min n all_models.length) sample) :
    (init_game rbg mr sample).players.length = n
    ∧ ((init_game rbg mr sample).players.map
        (fun p => (p.provider_name, p.model_id))).Nodup
    ∧ (init_game rbg mr sample).players.map (fun p => p.player_id) = List.range' 1 n
    ∧ ∀ p ∈ (init_game rbg mr sample).players,
        p.is_active = true ∧ p.has_won = false ∧ p.private_hints = [] := by
  obtain ⟨hl, hnd, _⟩ := hs
  rw [Nat.min_eq_left h2] at hl
  refine ⟨?_, ?_, ?_, ?_⟩
  · simpa [init_game, mkPlayers_length] using hl
  · simpa [init_game, mkPlayers_map_pair] using hnd
  · rw [init_game]
    show (mkPlayers 0 sample).map (fun p => p.player_id) = List.range' 1 n
    rw [mkPlayers_map_pid, hl]
  · intro p hp
    exact mkPlayers_mem_flags 0 sample p hp

/-- Witness for C8 at a concrete 2-player sample. -/
theorem c8_init_players_witness :
    (1 ≤ 2 ∧ 2 ≤ all_models.length
      ∧ SampleOf all_models (min 2 all_models.length)
          [("openai", "gpt-5"), ("google", "gemini-2.5-flash")])
    ∧ ((init_game 3 15 [("openai", "gpt-5"), ("google", "gemini-2.5-flash")]).players.length = 2
       ∧ ((init_game 3 15 [("openai", "gpt-5"), ("google", "gemini-2.5-flash")]).players.map
            (fun p => (p.provider_name, p.model_id))).Nodup
       ∧ (init_game 3 15 [("openai", "gpt-5"), ("google", "gemini-2.5-flash")]).players.map
            (fun p => p.player_id) = List.range' 1 2
       ∧ ∀ p ∈ (init_game 3 15 [("openai", "gpt-5"), ("google", "gemini-2.5-flash")]).players,
            p.is_active = true ∧ p.has_won = false ∧ p.private_hints = []) :=
  ⟨⟨by decide, by decide, by decide, by decide, by decide⟩,
   c8_init_players 2 3 15 [("openai", "gpt-5"), ("google", "gemini-2.5-flash")]
     (by decide) (by decide) ⟨by decide, by decide, by decide⟩⟩

/-! ### Claim C7 -/

/-- Claim C7: when the chat client raises, `_play_turn` abandons the turn
without the error propagating: the players (flags and hint lists included)
are untouched, the turn counter is untouched, and the sole observable
change is one "technical difficulty" observer message appended to the
conversation. -/
theorem c7_play_turn_error (gs : GameState) (pid : Nat) (e : String)
    (rand : Nat → Bool × Nat) :
    (play_turn gs pid (Except.error e) rand).players = gs.players
    ∧ (play_turn gs pid (Except.error e) rand).conversation
        = gs.conversation
          ++ [observerMsg ("Player " ++ toString pid ++ " had a technical difficulty. Skipping.")]
    ∧ (play_turn gs pid (Except.error e) rand).current_turn = gs.current_turn :=
  ⟨rfl, rfl, rfl⟩

/-! ### Claim C2 -/

/-- Claim C2 counterexample: the claim predicates success on containment
after lowercasing alone, but `_tool_guess_model` also strips the guess.
With true model `"gpt-5-mini"` and guess `"gpt-5 "` (trailing blank),
neither lowercased string contains the other — so the claim says the guess
fails — yet the code strips the guess to `"gpt-5"` and reports success. -/
theorem c2_counterexample :
    (tool_guess_model
        { players := [{ player_id := 1, provider_name := "openai", model_id := "gpt-5-mini" }],
          conversation := [] }
        1 [("target_player", "1"), ("guessed_model", "gpt-5 ")] 0).2
      = "✅ Correct! Player 1 is indeed that model. You earned a private hint!"
    ∧ pyIn (pyLower "gpt-5-mini") (pyLower "gpt-5 ") = false
    ∧ pyIn (pyLower "gpt-5 ") (pyLower "gpt-5-mini") = false := by
  refine ⟨by decide, by decide, by decide⟩

/-- Claim C2 (amended): for a target present in the state and a guesser
present in the state, `_tool_guess_model` reports success iff, after
stripping surrounding whitespace from the guess and lowercasing both, the
true model id contains the guess or the guess contains the true model id;
on success exactly one new hint is appended to the private hints of the guesser
(all other players and the conversation unchanged); on failure the state
is completely unchanged. -/
theorem c2_guess_model (gs : GameState) (pid tid : Nat)
    (args : List (String × String)) (k : Nat) (g : String) (target guesser : Player)
    (htid : parseTargetId ((args.lookup "target_player").getD "0") = tid)
    (hg : pyLower (pyStrip ((args.lookup "guessed_model").getD "")) = g)
    (htarget : gs.players.find? (fun p => p.player_id == tid) = some target)
    (hguesser : gs.players.find? (fun p => p.player_id == pid) = some guesser) :
    ((tool_guess_model gs pid args k).2
        = "✅ Correct! Player " ++ toString tid
          ++ " is indeed that model. You earned a private hint!"
      ↔ (pyIn (pyLower target.model_id) g || pyIn g (pyLower target.model_id)) = true)
    ∧ ((pyIn (pyLower target.model_id) g || pyIn g (pyLower target.model_id)) = true →
        (tool_guess_model gs pid args k).1.players
          = gs.players.map (fun p => if p.player_id = pid
              then { p with private_hints := p.private_hints ++ [generate_hint guesser k] }
              else p)
        ∧ (tool_guess_model gs pid args k).1.conversation = gs.conversation)
    ∧ ((pyIn (pyLower target.model_id) g || pyIn g (pyLower target.model_id)) = false →
        tool_guess_model gs pid args k = (gs,
          "❌ Wrong guess about Player " ++ toString tid ++ ".")) := by
  by_cases hc : (pyIn (pyLower target.model_id) g || pyIn g (pyLower target.model_id)) = true
  · have hr : tool_guess_model gs pid args k
        = (appendHint gs pid (generate_hint guesser k),
           "✅ Correct! Player " ++ toString tid
             ++ " is indeed that model. You earned a private hint!") := by
      simp only [tool_guess_model, htid, hg, htarget, hguesser, hc, if_true]
    refine ⟨?_, fun _ => ?_, fun hfalse => ?_⟩
    · rw [hr]; simpa using hc
    · rw [hr]; exact ⟨rfl, rfl⟩
    · rw [hc] at hfalse; cases hfalse
  · have hcf : (pyIn (pyLower target.model_id) g || pyIn g (pyLower target.model_id)) = false := by
      simpa using hc
    have hr : tool_guess_model gs pid args k
        = (gs, "❌ Wrong guess about Player " ++ toString tid ++ ".") := by
      simp only [tool_guess_model, htid, hg, htarget, hguesser, hcf, Bool.false_eq_true,
        if_false]
    have hhead1 : ("❌ Wrong guess about Player " ++ toString tid ++ ".").data.head?
        = some '❌' :=
      head_append_of_head _ (head_append_of_head _ (by decide))
    have hhead2 : ("✅ Correct! Player " ++ toString tid
        ++ " is indeed that model. You earned a private hint!").data.head? = some '✅' :=
      head_append_of_head _ (head_append_of_head _ (by decide))
    refine ⟨?_, fun htrue => absurd htrue hc, fun _ => hr⟩
    constructor
    · intro heq
      rw [hr] at heq
      exact absurd heq (string_ne_of_head_ne (by rw [hhead1, hhead2]; decide))
    · intro htrue
      exact absurd htrue hc

/-- Witness for C2 (amended) at a concrete two-player state: player 1
guesses the model of player 2 exactly (up to case), which succeeds. -/
theorem c2_guess_model_witness :
    (parseTargetId (([("target_player", "Player 2"), ("guessed_model", "Claude-Opus-4-6")].lookup
        "target_player").getD "0") = 2
      ∧ pyLower (pyStrip (([("target_player", "Player 2"),
          ("guessed_model", "Claude-Opus-4-6")].lookup "guessed_model").getD ""))
          = "claude-opus-4-6"
      ∧ ({ players := [{ player_id := 1, provider_name := "openai", model_id := "gpt-5" },
              { player_id := 2, provider_name := "anthropic", model_id := "claude-opus-4-6" }],
            conversation := [] } : GameState).players.find?
            (fun p => p.player_id == 2)
          = some { player_id := 2, provider_name := "anthropic", model_id := "claude-opus-4-6" }
      ∧ ({ players := [{ player_id := 1, provider_name := "openai", model_id := "gpt-5" },
              { player_id := 2, provider_name := "anthropic", model_id := "claude-opus-4-6" }],
            conversation := [] } : GameState).players.find?
            (fun p => p.player_id == 1)
          = some { player_id := 1, provider_name := "openai", model_id := "gpt-5" })
    ∧ ((tool_guess_model
          { players := [{ player_id := 1, provider_name := "openai", model_id := "gpt-5" },
              { player_id := 2, provider_name := "anthropic", model_id := "claude-opus-4-6" }],
            conversation := [] }
          1 [("target_player", "Player 2"), ("guessed_model", "Claude-Opus-4-6")] 0).2
         = "✅ Correct! Player " ++ toString 2
           ++ " is indeed that model. You earned a private hint!"
       ↔ (pyIn (pyLower "claude-opus-4-6") "claude-opus-4-6"
           || pyIn "claude-opus-4-6" (pyLower "claude-opus-4-6")) = true) :=
  ⟨⟨by decide, by decide, by decide, by decide⟩,
   (c2_guess_model
      { players := [{ player_id := 1, provider_name := "openai", model_id := "gpt-5" },
          { player_id := 2, provider_name := "anthropic", model_id := "claude-opus-4-6" }],
        conversation := [] }
      1 2 [("target_player", "Player 2"), ("guessed_model", "Claude-Opus-4-6")] 0
      "claude-opus-4-6"
      { player_id := 2, provider_name := "anthropic", model_id := "claude-opus-4-6" }
      { player_id := 1, provider_name := "openai", model_id := "gpt-5" }
      (by decide) (by decide) (by decide) (by decide)).1⟩

/-! ### Claim C3 -/

theorem sentinelHint_head : sentinelHint.data.head? = some 'N' := by decide

theorem possible_hints_head (p : Player) :
    ∀ t ∈ possible_hints p, t.data.head? = some 'Y' ∨ t.data.head? = some 'T' := by
  intro t ht
  simp only [possible_hints, List.mem_cons, List.not_mem_nil, or_false] at ht
  rcases ht with h | h | h | h | h
  · exact Or.inl (h ▸ head_append_of_head _ (head_append_of_head _ (by decide)))
  · exact Or.inl (h ▸ head_append_of_head _ (head_append_of_head _ (by decide)))
  · exact Or.inr (h ▸ head_append_of_head _ (head_append_of_head _ (by decide)))
  · exact Or.inl (h ▸ head_append_of_head _ (head_append_of_head _ (by decide)))
  · exact Or.inl (h ▸ head_append_of_head _ (head_append_of_head _ (by decide)))

/-- The "no more hints" sentinel is never one of the five templates (their
first characters differ), for every player. -/
theorem sentinelHint_not_mem (p : Player) : sentinelHint ∉ possible_hints p := by
  intro hmem
  have h := possible_hints_head p sentinelHint hmem
  rw [sentinelHint_head] at h
  rcases h with h | h
  · cases h
  · cases h

/-- Claim C3: `_generate_hint` never returns a template already in the
player's private hint list (so a template is issued to a player at most
once, private hints being append-only), and once all five templates are in
the hint list every call returns the fixed sentinel string. -/
theorem c3_generate_hint (player : Player) (k : Nat) (t : String) :
    (t ∈ possible_hints player → t ∈ player.private_hints → generate_hint player k ≠ t)
    ∧ ((∀ h ∈ possible_hints player, h ∈ player.private_hints) →
        generate_hint player k = sentinelHint) := by
  constructor
  · intro ht hmem
    simp only [generate_hint]
    cases hu : (possible_hints player).filter (fun h => !player.private_hints.contains h) with
    | nil =>
      show sentinelHint ≠ t
      intro heq
      exact sentinelHint_not_mem player (heq ▸ ht)
    | cons u us =>
      show (u :: us).getD (k % (u :: us).length) u ≠ t
      intro heq
      have hlt : k % (u :: us).length < (u :: us).length :=
        Nat.mod_lt _ (by simp)
      have hg : (u :: us).getD (k % (u :: us).length) u ∈ (u :: us) := by
        rw [List.getD_eq_getElem?_getD, List.getElem?_eq_getElem hlt]
        exact List.getElem_mem hlt
      have hmemf : t ∈ (possible_hints player).filter
          (fun h => !player.private_hints.contains h) := by
        rw [hu]
        exact heq ▸ hg
      have hnot := (List.mem_filter.mp hmemf).2
      have hnm : t ∉ player.private_hints := by simpa using hnot
      exact hnm hmem
  · intro hall
    simp only [generate_hint]
    have hnil : (possible_hints player).filter
        (fun h => !player.private_hints.contains h) = [] := by
      rw [List.filter_eq_nil_iff]
      intro a ha
      simp [hall a ha]
    rw [hnil]

/-- Witness for C3: a player holding the provider template cannot receive
it again, and a player holding all five templates gets the sentinel. -/
theorem c3_generate_hint_witness :
    (("Your provider is \x27openai\x27." ∈ possible_hints
        { player_id := 1, provider_name := "openai", model_id := "gpt-5",
          private_hints := ["Your provider is \x27openai\x27."] }
      ∧ "Your provider is \x27openai\x27." ∈
        (["Your provider is \x27openai\x27."] : List String))
      ∧ generate_hint
          { player_id := 1, provider_name := "openai", model_id := "gpt-5",
            private_hints := ["Your provider is \x27openai\x27."] } 0
          ≠ "Your provider is \x27openai\x27.")
    ∧ ((∀ h ∈ possible_hints
          { player_id := 1, provider_name := "openai", model_id := "gpt-5",
            private_hints := possible_hints
              { player_id := 1, provider_name := "openai", model_id := "gpt-5" } },
          h ∈ (possible_hints
            { player_id := 1, provider_name := "openai", model_id := "gpt-5" }))
        ∧ generate_hint
            { player_id := 1, provider_name := "openai", model_id := "gpt-5",
              private_hints := possible_hints
                { player_id := 1, provider_name := "openai", model_id := "gpt-5" } } 3
            = sentinelHint) :=
  ⟨⟨⟨by decide, by decide⟩,
    (c3_generate_hint
      { player_id := 1, provider_name := "openai", model_id := "gpt-5",
        private_hints := ["Your provider is \x27openai\x27."] } 0
      "Your provider is \x27openai\x27.").1 (by decide) (by decide)⟩,
   ⟨by decide,
    (c3_generate_hint
      { player_id := 1, provider_name := "openai", model_id := "gpt-5",
        private_hints := possible_hints
          { player_id := 1, provider_name := "openai", model_id := "gpt-5" } } 3
      "").2 (by decide)⟩⟩

/-! ### Claim C4 -/

/-- With pairwise-distinct player ids, the by-id update (Python object
mutation) touches exactly the one list position holding that id. -/
theorem map_if_pid_eq_set (l : List Player)
    (hnd : (l.map (fun p => p.player_id)).Nodup)
    (g : Player → Player) (j : Nat) (hj : j < l.length) :
    l.map (fun p => if p.player_id = (l.get ⟨j, hj⟩).player_id then g p else p)
      = l.set j (g (l.get ⟨j, hj⟩)) := by
  apply List.ext_getElem (by simp)
  intro i h1 h2
  rw [List.getElem_map]
  by_cases hij : i = j
  · subst hij
    rw [List.getElem_set_self h2]
    simp [List.get_eq_getElem]
  · rw [List.getElem_set_ne (fun h => hij h.symm)]
    have hib : i < l.length := by simpa using h1
    have hne : (l.get ⟨i, hib⟩).player_id ≠ (l.get ⟨j, hj⟩).player_id := by
      intro he
      apply hij
      have hi' : i < (l.map (fun p => p.player_id)).length := by simpa using hib
      have hj' : j < (l.map (fun p => p.player_id)).length := by simpa using hj
      have hmapped : (l.map (fun p => p.player_id))[i] = (l.map (fun p => p.player_id))[j] := by
        rw [List.getElem_map, List.getElem_map]
        simpa [List.get_eq_getElem] using he
      exact (List.Nodup.getElem_inj_iff hnd).mp hmapped
    simp only [List.get_eq_getElem] at hne
    simp [hne]

/-- Claim C4: `_tool_russian_roulette` — if the coin comes up "shoot
yourself" the caller's active flag is cleared; otherwise, if no other
active (not-won) player exists the state is fully unchanged and the
narration merely reports survival; otherwise exactly one list position is
changed, holding some other currently active, not-won player, whose active
flag is cleared (in particular the caller's entries are untouched). -/
theorem c4_russian_roulette (gs : GameState) (pid : Nat) (coin : Bool) (k : Nat)
    (hnd : (gs.players.map (fun p => p.player_id)).Nodup) :
    (coin = true →
      ∀ q ∈ (russian_roulette gs pid coin k).1.players,
        q.player_id = pid → q.is_active = false)
    ∧ (coin = false → gs.active_players.filter (fun p => p.player_id ≠ pid) = [] →
        russian_roulette gs pid coin k
          = (gs, "🎯 Player " ++ toString pid ++ " survived! No one else to hit though."))
    ∧ (coin = false → gs.active_players.filter (fun p => p.player_id ≠ pid) ≠ [] →
        ∃ (j : Nat) (hj : j < gs.players.length),
          (gs.players.get ⟨j, hj⟩).player_id ≠ pid
          ∧ (gs.players.get ⟨j, hj⟩).is_active = true
          ∧ (gs.players.get ⟨j, hj⟩).has_won = false
          ∧ (russian_roulette gs pid coin k).1.players
              = gs.players.set j { gs.players.get ⟨j, hj⟩ with is_active := false }) := by
  refine ⟨?_, ?_, ?_⟩
  · intro hcoin q hq hqpid
    subst hcoin
    simp only [russian_roulette, if_true, setInactive] at hq
    rcases List.mem_map.mp hq with ⟨p, hp, rfl⟩
    by_cases hpp : p.player_id = pid
    · simp [hpp]
    · simp only [hpp, if_false] at hqpid ⊢
  · intro hcoin hnil
    subst hcoin
    simp only [russian_roulette, Bool.false_eq_true, if_false]
    rw [hnil]
  · intro hcoin hne
    subst hcoin
    cases hofilter : gs.active_players.filter (fun p => p.player_id ≠ pid) with
    | nil => exact absurd hofilter hne
    | cons o os =>
      have hlt : k % (o :: os).length < (o :: os).length := Nat.mod_lt _ (by simp)
      have hvm : (o :: os).getD (k % (o :: os).length) o ∈ (o :: os) := by
        rw [List.getD_eq_getElem?_getD, List.getElem?_eq_getElem hlt]
        exact List.getElem_mem hlt
      have hvf : (o :: os).getD (k % (o :: os).length) o
          ∈ gs.active_players.filter (fun p => p.player_id ≠ pid) := by
        rw [hofilter]; exact hvm
      have hvpid : ((o :: os).getD (k % (o :: os).length) o).player_id ≠ pid := by
        have h := (List.mem_filter.mp hvf).2
        simpa using h
      have hva := (List.mem_filter.mp hvf).1
      simp only [GameState.active_players] at hva
      have hvmem : (o :: os).getD (k % (o :: os).length) o ∈ gs.players :=
        (List.mem_filter.mp hva).1
      have hvflags := (List.mem_filter.mp hva).2
      rw [Bool.and_eq_true, Bool.not_eq_true'] at hvflags
      obtain ⟨j, hj, hgetv⟩ := List.mem_iff_getElem.mp hvmem
      have hresult : (russian_roulette gs pid false k).1
          = setInactive gs (((o :: os).getD (k % (o :: os).length) o).player_id) := by
        simp only [russian_roulette, Bool.false_eq_true, if_false]
        rw [hofilter]
      refine ⟨j, hj, ?_, ?_, ?_, ?_⟩
      · rw [List.get_eq_getElem, hgetv]; exact hvpid
      · rw [List.get_eq_getElem, hgetv]; exact hvflags.1
      · rw [List.get_eq_getElem, hgetv]; exact hvflags.2
      · rw [hresult]
        show (setInactive gs _).players = _
        simp only [setInactive]
        have hrw : ((o :: os).getD (k % (o :: os).length) o).player_id
            = (gs.players.get ⟨j, hj⟩).player_id := by
          rw [List.get_eq_getElem, hgetv]
        rw [hrw]
        exact map_if_pid_eq_set gs.players hnd (fun p => { p with is_active := false }) j hj

/-- A concrete three-player state for the C4 witness. -/
def rouletteGS : GameState :=
  { players := [{ player_id := 1, provider_name := "openai", model_id := "gpt-5" },
      { player_id := 2, provider_name := "anthropic", model_id := "claude-opus-4-6" },
      { player_id := 3, provider_name := "google", model_id := "gemini-2.5-flash" }],
    conversation := [] }

/-- Witness for C4 in the "hit someone else" branch with three active
players: exactly one non-caller player is eliminated. -/
theorem c4_russian_roulette_witness :
    ((rouletteGS.players.map (fun p => p.player_id)).Nodup
      ∧ rouletteGS.active_players.filter (fun p => p.player_id ≠ 1) ≠ [])
    ∧ (∃ (j : Nat) (hj : j < rouletteGS.players.length),
        (rouletteGS.players.get ⟨j, hj⟩).player_id ≠ 1
        ∧ (rouletteGS.players.get ⟨j, hj⟩).is_active = true
        ∧ (rouletteGS.players.get ⟨j, hj⟩).has_won = false
        ∧ (russian_roulette rouletteGS 1 false 0).1.players
            = rouletteGS.players.set j
                { rouletteGS.players.get ⟨j, hj⟩ with is_active := false }) :=
  ⟨⟨by decide, by decide⟩,
   (c4_russian_roulette rouletteGS 1 false 0 (by decide)).2.2 rfl (by decide)⟩

/-! ### Claim C6 -/

/-- Pointwise evolution allowed to a player by any orchestrator operation:
an inactive player never becomes active again, and a won flag is never
cleared. -/
def Shrinks (p q : Player) : Prop :=
  (q.is_active = true → p.is_active = true) ∧ (p.has_won = true → q.has_won = true)

theorem shrinks_refl (l : List Player) : List.Forall₂ Shrinks l l :=
  List.forall₂_same.mpr (fun _ _ => ⟨id, id⟩)

theorem shrinks_trans : ∀ {l1 l2 l3 : List Player},
    List.Forall₂ Shrinks l1 l2 → List.Forall₂ Shrinks l2 l3 →
    List.Forall₂ Shrinks l1 l3 := by
  intro l1 l2 l3 h1
  induction h1 generalizing l3 with
  | nil => intro h2; cases h2; exact List.Forall₂.nil
  | cons hab _ ih =>
    intro h2
    cases h2 with
    | cons hbc h' =>
      exact List.Forall₂.cons
        ⟨fun ha => hab.1 (hbc.1 ha), fun hw => hbc.2 (hab.2 hw)⟩ (ih h')

theorem shrinks_map_update (l : List Player) (pid : Nat) (g : Player → Player)
    (hg : ∀ p, Shrinks p (g p)) :
    List.Forall₂ Shrinks l (l.map (fun p => if p.player_id = pid then g p else p)) := by
  rw [List.forall₂_map_right_iff]
  refine List.forall₂_same.mpr (fun x _ => ?_)
  by_cases h : x.player_id = pid
  · simpa [h] using hg x
  · simp [h, Shrinks]

theorem shrinks_setInactive (gs : GameState) (pid : Nat) :
    List.Forall₂ Shrinks gs.players (setInactive gs pid).players :=
  shrinks_map_update gs.players pid _ (fun _ => ⟨(fun h => nomatch h), id⟩)

theorem shrinks_setWon (gs : GameState) (pid : Nat) :
    List.Forall₂ Shrinks gs.players (setWon gs pid).players :=
  shrinks_map_update gs.players pid _ (fun _ => ⟨id, fun _ => rfl⟩)

theorem shrinks_appendHint (gs : GameState) (pid : Nat) (h : String) :
    List.Forall₂ Shrinks gs.players (appendHint gs pid h).players :=
  shrinks_map_update gs.players pid _ (fun _ => ⟨id, id⟩)

theorem shrinks_roulette (gs : GameState) (pid : Nat) (coin : Bool) (k : Nat) :
    List.Forall₂ Shrinks gs.players (russian_roulette gs pid coin k).1.players := by
  simp only [russian_roulette]
  split
  · exact shrinks_setInactive gs pid
  · split
    · exact shrinks_refl _
    · exact shrinks_setInactive gs _

theorem shrinks_guess (gs : GameState) (pid : Nat) (args : List (String × String)) (k : Nat) :
    List.Forall₂ Shrinks gs.players (tool_guess_model gs pid args k).1.players := by
  simp only [tool_guess_model]
  split
  · exact shrinks_refl _
  · split
    · split
      · exact shrinks_appendHint gs pid _
      · exact shrinks_refl _
    · exact shrinks_refl _

theorem shrinks_execute_tool (gs : GameState) (pid : Nat) (tc : ToolCall)
    (coin : Bool) (k : Nat) :
    List.Forall₂ Shrinks gs.players (execute_tool gs pid tc coin k).1.players := by
  simp only [execute_tool]
  split
  · exact shrinks_roulette gs pid coin k
  · split
    · exact shrinks_guess gs pid tc.arguments k
    · split
      · exact shrinks_refl _
      · split
        · exact shrinks_refl _
        · exact shrinks_refl _

theorem shrinks_processToolCalls (pid : Nat) (rand : Nat → Bool × Nat) :
    ∀ (tcs : List ToolCall) (i : Nat) (gs : GameState),
    List.Forall₂ Shrinks gs.players (processToolCalls pid rand tcs i gs).players
  | [], _, _ => shrinks_refl _
  | tc :: rest, i, gs => by
    simp only [processToolCalls]
    refine shrinks_trans ?_ (shrinks_processToolCalls pid rand rest (i + 1) _)
    exact shrinks_execute_tool gs pid tc (rand i).1 (rand i).2

theorem shrinks_play_turn (gs : GameState) (pid : Nat)
    (res : Except String ChatResult) (rand : Nat → Bool × Nat) :
    List.Forall₂ Shrinks gs.players (play_turn gs pid res rand).players := by
  cases res with
  | error e => exact shrinks_refl _
  | ok r =>
    exact shrinks_processToolCalls pid rand r.tool_calls 0
      { gs with conversation := gs.conversation ++
          [{ role := "assistant", content := "[Player " ++ toString pid ++ "]: " ++ r.content }] }

theorem shrinks_identityGuessStep (replies : Nat → Option String)
    (g : GameState) (p : Player) :
    List.Forall₂ Shrinks g.players (identityGuessStep replies g p).players := by
  simp only [identityGuessStep]
  split
  · exact shrinks_refl _
  · split
    · exact shrinks_setWon g p.player_id
    · exact shrinks_refl _

theorem shrinks_identity_fold (replies : Nat → Option String) :
    ∀ (ps : List Player) (g : GameState),
    List.Forall₂ Shrinks g.players
      ((ps.foldl (identityGuessStep replies) g)).players
  | [], _ => shrinks_refl _
  | p :: rest, g => by
    simp only [List.foldl_cons]
    exact shrinks_trans (shrinks_identityGuessStep replies g p)
      (shrinks_identity_fold replies rest _)

theorem shrinks_applyOp (gs : GameState) (op : Op) :
    List.Forall₂ Shrinks gs.players (applyOp gs op).players := by
  cases op with
  | tool pid tc coin k => exact shrinks_execute_tool gs pid tc coin k
  | note m => exact shrinks_refl _
  | turn pid res rand => exact shrinks_play_turn gs pid res rand
  | checkpoint replies => exact shrinks_identity_fold replies gs.active_players gs

theorem active_filter_le_of_shrinks : ∀ {l l' : List Player},
    List.Forall₂ Shrinks l l' →
    (l'.filter (fun p => p.is_active && !p.has_won)).length
      ≤ (l.filter (fun p => p.is_active && !p.has_won)).length := by
  intro l l' h
  induction h with
  | nil => exact Nat.le_refl 0
  | cons hab hrest ih =>
    rename_i a b l₁ l₂
    by_cases hb : (b.is_active && !b.has_won) = true
    · have hba : (a.is_active && !a.has_won) = true := by
        rw [Bool.and_eq_true, Bool.not_eq_true'] at hb ⊢
        refine ⟨hab.1 hb.1, ?_⟩
        cases hw : a.has_won
        · rfl
        · rw [hab.2 hw] at hb; cases hb.2
      simp only [List.filter_cons, hb, hba, if_true, List.length_cons]
      exact Nat.succ_le_succ ih
    · simp only [List.filter_cons, hb, if_false]
      by_cases ha : (a.is_active && !a.has_won) = true
      · simp only [ha, if_true, List.length_cons]
        exact Nat.le_succ_of_le ih
      · simp only [ha, if_false]
        exact ih

/-- Claim C6: over any sequence of orchestrator operations (tool
executions with their narration, observer notes, whole player turns, and
identity-guess checkpoints) every player pointwise only loses the active
flag and only gains the won flag — nothing re-activates a player or clears
a won flag — and hence the active-player count is non-increasing. -/
theorem c6_active_non_increasing (ops : List Op) (gs : GameState) :
    List.Forall₂ Shrinks gs.players (ops.foldl applyOp gs).players
    ∧ (ops.foldl applyOp gs).active_players.length ≤ gs.active_players.length := by
  have main : ∀ (ops : List Op) (gs : GameState),
      List.Forall₂ Shrinks gs.players (ops.foldl applyOp gs).players := by
    intro ops
    induction ops with
    | nil => intro gs; exact shrinks_refl _
    | cons op rest ih =>
      intro gs
      simp only [List.foldl_cons]
      exact shrinks_trans (shrinks_applyOp gs op) (ih _)
  exact ⟨main ops gs, active_filter_le_of_shrinks (main ops gs)⟩

/-! ### Claim C10 -/

/-- The empty string is a Python substring of every string. -/
theorem pyIn_empty_left (s : String) : pyIn "" s = true := by
  simp only [pyIn, decide_eq_true_iff]
  exact ⟨[], s.toList, by simp⟩

theorem setWon_won (g : GameState) (pid : Nat) :
    ∀ q ∈ (setWon g pid).players, q.player_id = pid → q.has_won = true := by
  intro q hq hqp
  simp only [setWon] at hq
  rcases List.mem_map.mp hq with ⟨p, _, rfl⟩
  by_cases h : p.player_id = pid
  · simp [h]
  · simp only [h, if_false] at hqp ⊢

theorem won_persists_step (replies : Nat → Option String) (g : GameState)
    (p : Player) (pid : Nat)
    (h : ∀ q ∈ g.players, q.player_id = pid → q.has_won = true) :
    ∀ q ∈ (identityGuessStep replies g p).players, q.player_id = pid → q.has_won = true := by
  simp only [identityGuessStep]
  split
  · exact h
  · split
    · intro q hq hqp
      simp only [setWon] at hq
      rcases List.mem_map.mp hq with ⟨x, hx, rfl⟩
      by_cases hxp : x.player_id = p.player_id
      · simp [hxp]
      · simp only [hxp, if_false] at hqp ⊢
        exact h x hx hqp
    · exact h

theorem won_persists_fold (replies : Nat → Option String) (pid : Nat) :
    ∀ (ps : List Player) (g : GameState),
    (∀ q ∈ g.players, q.player_id = pid → q.has_won = true) →
    ∀ q ∈ (ps.foldl (identityGuessStep replies) g).players,
      q.player_id = pid → q.has_won = true
  | [], _, h => h
  | p :: rest, g, h => by
    simp only [List.foldl_cons]
    exact won_persists_fold replies pid rest _ (won_persists_step replies g p pid h)

theorem identity_sets_won_aux (replies : Nat → Option String) (c : String) (p : Player)
    (hrep : replies p.player_id = some c) (hstrip : pyStrip c = "") :
    ∀ (ps : List Player) (g : GameState), p ∈ ps →
    ∀ q ∈ (ps.foldl (identityGuessStep replies) g).players,
      q.player_id = p.player_id → q.has_won = true := by
  intro ps
  induction ps with
  | nil => intro g hp; cases hp
  | cons a rest ih =>
    intro g hp q hq hqp
    simp only [List.foldl_cons] at hq
    rcases List.mem_cons.mp hp with heq | hmem
    · subst heq
      have hstep : ∀ q ∈ (identityGuessStep replies g p).players,
          q.player_id = p.player_id → q.has_won = true := by
        have hcond : (pyIn (pyLower p.model_id) (pyLower (pyStrip c))
            || pyIn (pyLower (pyStrip c)) (pyLower p.model_id)) = true := by
          rw [hstrip]
          show (pyIn (pyLower p.model_id) "" || pyIn "" (pyLower p.model_id)) = true
          rw [pyIn_empty_left]
          exact Bool.or_true _
        simp only [identityGuessStep, hrep, hcond, if_true]
        exact setWon_won g p.player_id
      exact won_persists_fold replies p.player_id rest _ hstep q hq hqp
    · exact ih _ hmem q hq hqp

/-- Claim C10: an empty-after-strip guess always matches.  First part:
`_tool_guess_model` with a `guessed_model` that strips to the empty string
reports success against any target present in the state and appends a hint
to the guesser.  Second part: in `_identity_guess_round`, an active player
whose reply content strips to the empty string is flagged as having won,
regardless of their true model identifier. -/
theorem c10_empty_inputs :
    (∀ (gs : GameState) (pid : Nat) (args : List (String × String)) (k : Nat)
        (tid : Nat) (target guesser : Player),
        parseTargetId ((args.lookup "target_player").getD "0") = tid →
        pyStrip ((args.lookup "guessed_model").getD "") = "" →
        gs.players.find? (fun p => p.player_id == tid) = some target →
        gs.players.find? (fun p => p.player_id == pid) = some guesser →
        (tool_guess_model gs pid args k).2
          = "✅ Correct! Player " ++ toString tid
            ++ " is indeed that model. You earned a private hint!"
        ∧ (tool_guess_model gs pid args k).1.players
            = gs.players.map (fun p => if p.player_id = pid
                then { p with private_hints := p.private_hints ++ [generate_hint guesser k] }
                else p))
    ∧ (∀ (gs : GameState) (replies : Nat → Option String) (p : Player) (c : String),
        p ∈ gs.active_players → replies p.player_id = some c → pyStrip c = "" →
        ∀ q ∈ (identity_guess_round replies gs).players,
          q.player_id = p.player_id → q.has_won = true) := by
  constructor
  · intro gs pid args k tid target guesser htid hstrip htarget hguesser
    have hcond : (pyIn (pyLower target.model_id)
        (pyLower (pyStrip ((args.lookup "guessed_model").getD "")))
        || pyIn (pyLower (pyStrip ((args.lookup "guessed_model").getD "")))
            (pyLower target.model_id)) = true := by
      rw [hstrip]
      show (pyIn (pyLower target.model_id) "" || pyIn "" (pyLower target.model_id)) = true
      rw [pyIn_empty_left]
      exact Bool.or_true _
    constructor
    · simp only [tool_guess_model, htid, htarget, hguesser, hcond, if_true]
    · simp only [tool_guess_model, htid, htarget, hguesser, hcond, if_true, appendHint]
  · intro gs replies p c hp hrep hstrip q hq hqp
    exact identity_sets_won_aux replies c p hrep hstrip gs.active_players gs hp q hq hqp

/-- The concrete one-player state used by the C10 witness. -/
def emptyGuessGS : GameState :=
  { players := [{ player_id := 1, provider_name := "openai", model_id := "gpt-5" }],
    conversation := [] }

/-- The single player of `emptyGuessGS`. -/
def emptyGuessPlayer : Player :=
  { player_id := 1, provider_name := "openai", model_id := "gpt-5" }

/-- Witness for C10: a blank guess succeeds against a concrete player, and
a blank identity reply flags a concrete active player as winner. -/
theorem c10_empty_inputs_witness :
    ((parseTargetId (([("target_player", "1"), ("guessed_model", " ")].lookup
        "target_player").getD "0") = 1
      ∧ pyStrip (([("target_player", "1"), ("guessed_model", " ")].lookup
          "guessed_model").getD "") = ""
      ∧ emptyGuessGS.players.find? (fun p => p.player_id == 1) = some emptyGuessPlayer)
     ∧ (tool_guess_model emptyGuessGS 1
          [("target_player", "1"), ("guessed_model", " ")] 0).2
        = "✅ Correct! Player " ++ toString 1
          ++ " is indeed that model. You earned a private hint!")
    ∧ (emptyGuessPlayer ∈ emptyGuessGS.active_players
      ∧ pyStrip "  " = ""
      ∧ ∀ q ∈ (identity_guess_round (fun _ => some "  ") emptyGuessGS).players,
          q.player_id = emptyGuessPlayer.player_id → q.has_won = true) :=
  ⟨⟨⟨by decide, by decide, by decide⟩,
    ((c10_empty_inputs).1 emptyGuessGS 1
      [("target_player", "1"), ("guessed_model", " ")] 0 1
      emptyGuessPlayer emptyGuessPlayer
      (by decide) (by decide) (by decide) (by decide)).1⟩,
   ⟨by decide, by decide,
    (c10_empty_inputs).2 emptyGuessGS (fun _ => some "  ") emptyGuessPlayer
      "  " (by decide) rfl (by decide)⟩⟩

/-! ### Claim C9 -/

/-- Every element of the joined list occurs verbatim inside the join. -/
theorem substr_of_mem_joinSep (sep : String) :
    ∀ (L : List String), ∀ x ∈ L, x.toList <:+: (joinSep sep L).toList
  | [], x, hx => absurd hx (List.not_mem_nil x)
  | [y], x, hx => by
    rcases List.mem_singleton.mp hx with rfl
    exact List.infix_rfl
  | y :: z :: t, x, hx => by
    simp only [joinSep]
    rcases List.mem_cons.mp hx with heq | hmem
    · subst heq
      refine ⟨[], sep.toList ++ (joinSep sep (z :: t)).toList, ?_⟩
      simp only [String.toList, String.data_append, List.nil_append, List.append_assoc]
    · obtain ⟨s1, s2, hs⟩ := substr_of_mem_joinSep sep (z :: t) x hmem
      refine ⟨y.toList ++ sep.toList ++ s1, s2, ?_⟩
      simp only [String.toList] at hs
      simp only [String.toList, String.data_append, List.append_assoc]
      rw [← hs]
      simp [List.append_assoc]

/-- Replacing one list entry by one with the same flags leaves the
active-player count unchanged. -/
theorem filter_length_set_eq (l : List Player) :
    ∀ (j : Nat) (hj : j < l.length) (y : Player),
    y.is_active = (l.get ⟨j, hj⟩).is_active →
    y.has_won = (l.get ⟨j, hj⟩).has_won →
    ((l.set j y).filter (fun p => p.is_active && !p.has_won)).length
      = (l.filter (fun p => p.is_active && !p.has_won)).length := by
  induction l with
  | nil => intro j hj; cases hj
  | cons a t ih =>
    intro j hj y ha hw
    cases j with
    | zero =>
      simp only [List.set_cons_zero, List.filter_cons]
      have hpred : (y.is_active && !y.has_won) = (a.is_active && !a.has_won) := by
        simp only [List.get] at ha hw
        rw [ha, hw]
      rw [hpred]
      by_cases hp : (a.is_active && !a.has_won) = true
      · simp [hp]
      · simp [hp]
    | succ n =>
      simp only [List.set_cons_succ, List.filter_cons]
      have hn : n < t.length := Nat.lt_of_succ_lt_succ hj
      have := ih n hn y (by simpa using ha) (by simpa using hw)
      by_cases hp : (a.is_active && !a.has_won) = true
      · simp [hp, this]
      · simp [hp, this]

/-- Claim C9: the per-player system prompt contains the player's own
private hints and is independent of every other player's hints — replacing
another player's hint list yields the identical prompt. -/
theorem c9_prompt_hints (sp sc : String) (p : Player) (gs : GameState)
    (j : Nat) (hj : j < gs.players.length) (hs : List String)
    (_hother : (gs.players.get ⟨j, hj⟩).player_id ≠ p.player_id) :
    player_system_prompt sp sc p
        { gs with players := gs.players.set j ({ gs.players.get ⟨j, hj⟩ with private_hints := hs }) }
      = player_system_prompt sp sc p gs
    ∧ ∀ h ∈ p.private_hints,
        (renderHint h).toList <:+: (player_system_prompt sp sc p gs).toList := by
  constructor
  · have hcount : ({ gs with players := gs.players.set j ({ gs.players.get ⟨j, hj⟩ with private_hints := hs }) } : GameState).active_players.length
        = gs.active_players.length := by
      simp only [GameState.active_players]
      exact filter_length_set_eq gs.players j hj _ rfl rfl
    simp only [player_system_prompt, hcount]
  · intro h hmem
    have hne : p.private_hints.isEmpty = false := by
      cases hl : p.private_hints with
      | nil => rw [hl] at hmem; cases hmem
      | cons a t => simp
    simp only [player_system_prompt, hne, Bool.false_eq_true, if_false]
    apply substr_of_mem_joinSep
    exact List.mem_append_right _ (List.mem_map_of_mem renderHint hmem)

/-- Concrete two-player state for the C9 witness: player 1 holds one
private hint, player 2 is the "other" player whose hints get replaced. -/
def promptP : Player :=
  { player_id := 1, provider_name := "openai", model_id := "gpt-5",
    private_hints := ["Your provider is \x27openai\x27."] }

/-- The two-player state containing `promptP`. -/
def promptGS : GameState :=
  { players := [promptP,
      { player_id := 2, provider_name := "anthropic", model_id := "claude-opus-4-6" }],
    conversation := [] }

/-- Witness for C9: changing player 2's hints leaves player 1's prompt
identical, and player 1's own hint occurs in the prompt. -/
theorem c9_prompt_hints_witness :
    ((promptGS.players.get ⟨1, by decide⟩).player_id ≠ promptP.player_id)
    ∧ (player_system_prompt "TPL" "SRC" promptP
          { promptGS with players := promptGS.players.set 1 ({ promptGS.players.get ⟨1, by decide⟩ with private_hints := ["leaked"] }) }
        = player_system_prompt "TPL" "SRC" promptP promptGS
      ∧ ∀ h ∈ promptP.private_hints,
          (renderHint h).toList <:+: (player_system_prompt "TPL" "SRC" promptP promptGS).toList) :=
  ⟨by decide,
   c9_prompt_hints "TPL" "SRC" promptP promptGS 1 (by decide) ["leaked"] (by decide)⟩

/-! ### Claim C5 -/

theorem passPlayers_le (env : Env) (maxR rbg : Nat) (ids : List Nat) :
    ∀ (turn : Nat) (gs : GameState), turn ≤ (passPlayers env maxR rbg ids turn gs).1 := by
  induction ids with
  | nil => intro turn gs; exact Nat.le_refl _
  | cons pid rest ih =>
    intro turn gs
    simp only [passPlayers]
    split
    · exact ih turn gs
    · split
      · exact ih turn gs
      · split
        · split
          · exact Nat.le_succ turn
          · split
            · exact Nat.le_succ turn
            · exact Nat.le_trans (Nat.le_succ turn) (ih (turn + 1) _)
        · split
          · exact Nat.le_succ turn
          · split
            · exact Nat.le_succ turn
            · exact Nat.le_trans (Nat.le_succ turn) (ih (turn + 1) _)

theorem passPlayers_le_max (env : Env) (maxR rbg : Nat) (ids : List Nat) :
    ∀ (turn : Nat) (gs : GameState), turn < maxR →
      (passPlayers env maxR rbg ids turn gs).1 ≤ maxR := by
  induction ids with
  | nil => intro turn gs h; exact Nat.le_of_lt h
  | cons pid rest ih =>
    intro turn gs h
    simp only [passPlayers]
    split
    · exact ih turn gs h
    · split
      · exact ih turn gs h
      · split
        · split
          · exact Nat.succ_le_of_lt h
          · split
            · exact Nat.succ_le_of_lt h
            · rename_i hnle
              exact ih (turn + 1) _ (Nat.lt_of_not_le hnle)
        · split
          · exact Nat.succ_le_of_lt h
          · split
            · exact Nat.succ_le_of_lt h
            · rename_i hnle
              exact ih (turn + 1) _ (Nat.lt_of_not_le hnle)

theorem passPlayers_ids (env : Env) (maxR rbg : Nat)
    (hpt : ∀ pid t, PreservesIds (env.playTurn pid t))
    (hcp : PreservesIds env.checkpoint) (ids : List Nat) :
    ∀ (turn : Nat) (gs : GameState),
      (passPlayers env maxR rbg ids turn gs).2.players.map (fun p => p.player_id)
        = gs.players.map (fun p => p.player_id) := by
  induction ids with
  | nil => intro turn gs; rfl
  | cons pid rest ih =>
    intro turn gs
    simp only [passPlayers]
    split
    · exact ih turn gs
    · split
      · exact ih turn gs
      · have h1 : (env.playTurn pid (turn + 1)
              { gs with current_turn := turn + 1 }).players.map (fun q => q.player_id)
            = gs.players.map (fun q => q.player_id) :=
          hpt pid (turn + 1) { gs with current_turn := turn + 1 }
        split
        · have h2 : (env.checkpoint (env.playTurn pid (turn + 1)
                { gs with current_turn := turn + 1 })).players.map (fun q => q.player_id)
              = gs.players.map (fun q => q.player_id) := by
            rw [hcp, h1]
          split
          · exact h2
          · split
            · exact h2
            · rw [ih (turn + 1) _, h2]
        · split
          · exact h1
          · split
            · exact h1
            · rw [ih (turn + 1) _, h1]

theorem passPlayers_progress (env : Env) (maxR rbg : Nat)
    (pid : Nat) (rest : List Nat) (turn : Nat) (gs : GameState) (p : Player)
    (hfind : gs.players.find? (fun q => q.player_id == pid) = some p)
    (hact : p.is_active = true) (hwon : p.has_won = false) :
    turn + 1 ≤ (passPlayers env maxR rbg (pid :: rest) turn gs).1 := by
  have hskip : (!p.is_active || p.has_won) = false := by rw [hact, hwon]; rfl
  simp only [passPlayers, hfind, hskip, Bool.false_eq_true, if_false]
  split
  · split
    · exact Nat.le_refl _
    · split
      · exact Nat.le_refl _
      · exact passPlayers_le env maxR rbg rest (turn + 1) _
  · split
    · exact Nat.le_refl _
    · split
      · exact Nat.le_refl _
      · exact passPlayers_le env maxR rbg rest (turn + 1) _

/-- If the active-player snapshot is nonempty, its head is found by the
by-id lookup (using distinctness of ids) and is active and not won. -/
theorem active_head_found (gs : GameState)
    (hnd : (gs.players.map (fun p => p.player_id)).Nodup)
    (q : Player) (qs : List Player) (hact : gs.active_players = q :: qs) :
    gs.players.find? (fun p => p.player_id == q.player_id) = some q
    ∧ q.is_active = true ∧ q.has_won = false := by
  have hq : q ∈ gs.active_players := by
    rw [hact]; exact List.mem_cons_self q qs
  simp only [GameState.active_players] at hq
  have hqm := (List.mem_filter.mp hq).1
  have hqf := (List.mem_filter.mp hq).2
  rw [Bool.and_eq_true] at hqf
  have hqw : q.has_won = false := by
    have h := hqf.2
    rwa [Bool.not_eq_true'] at h
  have hsome : (gs.players.find? (fun p => p.player_id == q.player_id)).isSome := by
    rw [List.find?_isSome]
    exact ⟨q, hqm, by simp⟩
  obtain ⟨r, hr⟩ := Option.isSome_iff_exists.mp hsome
  have hrmem := List.mem_of_find?_eq_some hr
  have hrpid : r.player_id = q.player_id := by
    have h := List.find?_some hr
    simpa using h
  have hrq : r = q := List.inj_on_of_nodup_map hnd hrmem hqm hrpid
  rw [hr, hrq]
  exact ⟨rfl, hqf.1, hqw⟩

theorem gameLoop_spec (env : Env) (maxR rbg : Nat)
    (hpt : ∀ pid t, PreservesIds (env.playTurn pid t))
    (hcp : PreservesIds env.checkpoint) :
    ∀ (fuel turn : Nat) (gs : GameState),
      turn ≤ maxR → maxR - turn ≤ fuel →
      (gs.players.map (fun p => p.player_id)).Nodup →
      (gameLoop env maxR rbg fuel turn gs).1 ≤ maxR
      ∧ ((gameLoop env maxR rbg fuel turn gs).1 = maxR
         ∨ (gameLoop env maxR rbg fuel turn gs).2.active_players.length ≤ 1) := by
  intro fuel
  induction fuel with
  | zero =>
    intro turn gs hle hfuel _
    have hge : maxR ≤ turn := by omega
    simp only [gameLoop]
    exact ⟨hle, Or.inl (Nat.le_antisymm hle hge)⟩
  | succ fuel ih =>
    intro turn gs hle hfuel hnd
    simp only [gameLoop]
    split
    · rename_i hmt
      exact ⟨hle, Or.inl (Nat.le_antisymm hle hmt)⟩
    · rename_i hmt
      split
      · rename_i hact
        exact ⟨hle, Or.inr hact⟩
      · rename_i hact
        have hturnlt : turn < maxR := Nat.lt_of_not_le hmt
        cases hap : gs.active_players with
        | nil => rw [hap] at hact; simp at hact
        | cons q qs =>
          rw [← hap]
          obtain ⟨hfind, hqa, hqw⟩ := active_head_found gs hnd q qs hap
          have hidseq : gs.active_players.map (fun p => p.player_id)
              = q.player_id :: qs.map (fun p => p.player_id) := by
            rw [hap]; rfl
          have hprog : turn + 1 ≤ (passPlayers env maxR rbg
              (gs.active_players.map (fun p => p.player_id)) turn gs).1 := by
            rw [hidseq]
            exact passPlayers_progress env maxR rbg q.player_id _ turn gs q hfind hqa hqw
          have hbound : (passPlayers env maxR rbg
              (gs.active_players.map (fun p => p.player_id)) turn gs).1 ≤ maxR :=
            passPlayers_le_max env maxR rbg _ turn gs hturnlt
          have hids : (passPlayers env maxR rbg
              (gs.active_players.map (fun p => p.player_id)) turn gs).2.players.map
                (fun p => p.player_id)
              = gs.players.map (fun p => p.player_id) :=
            passPlayers_ids env maxR rbg hpt hcp _ turn gs
          have hnodup : ((passPlayers env maxR rbg
              (gs.active_players.map (fun p => p.player_id)) turn gs).2.players.map
                (fun p => p.player_id)).Nodup := by
            rw [hids]; exact hnd
          have hfuellt : maxR - (passPlayers env maxR rbg
              (gs.active_players.map (fun p => p.player_id)) turn gs).1 ≤ fuel := by
            omega
          exact ih (passPlayers env maxR rbg
              (gs.active_players.map (fun p => p.player_id)) turn gs).1
            (passPlayers env maxR rbg
              (gs.active_players.map (fun p => p.player_id)) turn gs).2
            hbound hfuellt hnodup

/-- Claim C5: for any turn effects and checkpoint effects that do not
create, delete or re-identify players, `StillePostGame.run` halts with the
turn counter never exceeding `max_rounds`, and at the moment it halts
either the counter has reached `max_rounds` or at most one active player
remains — the two loop-exit conditions, checked at pass start, after each
turn and after each checkpoint in the loop structure of `gameLoop` and
`passPlayers`. -/
theorem c5_run_termination (env : Env) (maxR rbg : Nat) (gs : GameState)
    (hpt : ∀ pid t, PreservesIds (env.playTurn pid t))
    (hcp : PreservesIds env.checkpoint)
    (hin : PreservesIds env.intro)
    (hnd : (gs.players.map (fun p => p.player_id)).Nodup) :
    (runGame env maxR rbg gs).1 ≤ maxR
    ∧ ((runGame env maxR rbg gs).1 = maxR
       ∨ (runGame env maxR rbg gs).2.active_players.length ≤ 1) := by
  have hnodup : ((env.intro gs).players.map (fun p => p.player_id)).Nodup := by
    rw [hin gs]; exact hnd
  exact gameLoop_spec env maxR rbg hpt hcp maxR 0 (env.intro gs)
    (Nat.zero_le _) (by omega) hnodup

/-- The trivial environment (turns and checkpoints change nothing) for the
C5 witness. -/
def trivEnv : Env := { intro := id, playTurn := fun _ _ => id, checkpoint := id }

/-- A concrete two-player state for the C5 witness. -/
def loopGS : GameState :=
  { players := [{ player_id := 1, provider_name := "openai", model_id := "gpt-5" },
      { player_id := 2, provider_name := "anthropic", model_id := "claude-opus-4-6" }],
    conversation := [] }

/-- Witness for C5 with the trivial environment: the loop stops exactly at
the configured maximum of 2 turns. -/
theorem c5_run_termination_witness :
    ((∀ pid t, PreservesIds (trivEnv.playTurn pid t))
      ∧ PreservesIds trivEnv.checkpoint
      ∧ PreservesIds trivEnv.intro
      ∧ (loopGS.players.map (fun p => p.player_id)).Nodup)
    ∧ ((runGame trivEnv 2 1 loopGS).1 ≤ 2
       ∧ ((runGame trivEnv 2 1 loopGS).1 = 2
          ∨ (runGame trivEnv 2 1 loopGS).2.active_players.length ≤ 1)) :=
  ⟨⟨fun _ _ _ => rfl, fun _ => rfl, fun _ => rfl, by decide⟩,
   c5_run_termination trivEnv 2 1 loopGS (fun _ _ _ => rfl) (fun _ => rfl)
     (fun _ => rfl) (by decide)⟩

end StillePost
